import Mathlib

/-!
# Verification of the AMF service pipeline

Shallow embedding of the session orchestrator in `src/lib/AmfService.js`
(prepare / resolve / parse / cancel / cleanup, the temp-resource lifecycle,
and the out-of-process parser supervisor) together with the archive
auto-detection logic of `src/renderer/ElectronAmfService.js`.

External effects (the filesystem, the zip extractor, the `ApiSearch`
collaborator whose implementation ships outside this package, and the worker
process) are modelled by an explicit `Oracle` describing the environment's
responses, an `Fs` record describing the on-disk temp resources, and a
discrete event relation for the supervisor's message/timer callbacks.
All definitions follow the JavaScript source line by line, including its
JavaScript-specific behaviours (truthiness tests, un-awaited promises,
`path.join` on `undefined`).
-/

namespace AmfSpec

/-- A JavaScript value as it occurs in the truthiness tests of the embedded
code.  A pending `Promise` is an object and objects are always truthy. -/
inductive JsVal
  | undef
  | boolV (b : Bool)
  | strV (s : String)
  | promiseOf (b : Bool)
deriving Repr, DecidableEq

/-- JavaScript truthiness. -/
def jsTruthy : JsVal → Bool
  | JsVal.undef => false
  | JsVal.boolV b => b
  | JsVal.strV s => !s.isEmpty
  | JsVal.promiseOf _ => true

/-- Truthiness of an optional boolean option field (`opts.zip` may be
`undefined`). -/
def jsOptTrue : Option Bool → Bool
  | some b => b
  | none => false

/-- Truthiness of an optional string field (`this.mainFile`): `undefined` and
the empty string are falsy. -/
def jsStrOptTruthy : Option String → Bool
  | some m => !m.isEmpty
  | none => false

/-- Errors raised by the embedded code: `new Error(msg)` / a rejected promise
reason, and the `TypeError` thrown by `path.join(dir, undefined)`. -/
inductive JsErr
  | err (msg : String)
  | typeErr
deriving Repr, DecidableEq

/-- The source handed to `setSource`: a byte buffer or a filesystem path. -/
inductive Source
  | buffer (bytes : List Nat)
  | path (p : String)
deriving Repr, DecidableEq

/-- Which kind of temp resource `this.tmpObj` currently references
(`tmp-promise`'s `file()` or `dir()` result). -/
inductive TmpKind
  | tmpFile
  | tmpDir
deriving Repr, DecidableEq

/-- An entry of an extracted directory: a plain file or a subdirectory with
its own entries. -/
inductive Entry
  | fileE (name : String)
  | dirE (name : String) (children : List Entry)

/-- The name of a directory entry. -/
def entryName : Entry → String
  | Entry.fileE n => n
  | Entry.dirE n _ => n

/-- `stats.isDirectory()` for a directory entry. -/
def entryIsDir : Entry → Bool
  | Entry.fileE _ => false
  | Entry.dirE _ _ => true

/-- The top level of an extracted directory. -/
abbrev DirTree := List Entry

/-- `fs.readdir`: the names at the top level of a directory. -/
def entryNames (t : DirTree) : List String := t.map entryName

/-- Look up a top-level entry by name (`fs.stat(path.join(dir, name))`). -/
def findEntry (t : DirTree) (n : String) : Option Entry :=
  t.find? (fun e => entryName e == n)

/-- One step of fs-extra's `copy(src, dest)` merge: copying child `c` of the
source directory into `dest` overwrites a same-named entry, otherwise appends.
`copy` never removes entries already present in `dest`. -/
def mergeEntry (es : List Entry) (c : Entry) : List Entry :=
  if es.any (fun e => entryName e == entryName c) then
    es.map (fun e => if entryName e == entryName c then c else e)
  else es ++ [c]

/-- fs-extra `copy(dirPath, destination)` for directories: merge all children
of the source directory into the destination's top level. -/
def mergeEntries (es cs : List Entry) : List Entry := cs.foldl mergeEntry es

/-- The detected API type (`ApiSearchTypeResult`): spec family and mime
content type. -/
structure ApiType where
  type : String
  contentType : String
deriving Repr, DecidableEq

/-- The value `parse` resolves with: the model string and the detected type. -/
structure ParseResult where
  model : String
  rType : ApiType
deriving Repr, DecidableEq

/-- On-disk state of the session's temp resources.  `deleteCount` counts the
actual resource deletions performed, to express "no double delete". -/
structure Fs where
  tmpFileExists : Bool
  tmpDirTree : Option DirTree
  deleteCount : Nat

/-- `true` when no temp resource created by this session exists on disk. -/
def fsNoTemp (fs : Fs) : Bool := !fs.tmpFileExists && fs.tmpDirTree.isNone

/-- Deleting the temp file (`tmp-promise` file cleanup / unlink). -/
def rmTmpFile (fs : Fs) : Fs :=
  if fs.tmpFileExists then
    { fs with tmpFileExists := false, deleteCount := fs.deleteCount + 1 }
  else fs

/-- `fs.emptyDir` on the temp directory. -/
def emptyTmpDir (fs : Fs) : Fs :=
  match fs.tmpDirTree with
  | some _ => { fs with tmpDirTree := some [] }
  | none => fs

/-- `tmp-promise` dir cleanup: `rmdir`, which succeeds only on an empty
directory. -/
def rmTmpDir (fs : Fs) : Fs :=
  match fs.tmpDirTree with
  | some t =>
      if t.isEmpty then
        { fs with tmpDirTree := none, deleteCount := fs.deleteCount + 1 }
      else fs
  | none => fs

/-- `this.tmpObj.cleanup()` dispatched on what the tmp object references. -/
def tmpCleanupCall (fs : Fs) : TmpKind → Fs
  | TmpKind.tmpFile => rmTmpFile fs
  | TmpKind.tmpDir => rmTmpDir fs

/-- `fs.emptyDir(this.tmpObj.path)` dispatched on what the tmp object
references (a no-op for a file path in the states the claims reach). -/
def fsEmpty (fs : Fs) : TmpKind → Fs
  | TmpKind.tmpFile => fs
  | TmpKind.tmpDir => emptyTmpDir fs

/-- Liveness and IPC connection state of one forked worker process. -/
structure ProcInfo where
  alive : Bool
  connected : Bool
deriving Repr, DecidableEq

/-- A `setTimeout` handle: its duration and whether the underlying timer is
still armed (`clearTimeout` disarms without clearing the field that holds
the handle). -/
structure Timer where
  duration : Nat
  armed : Bool
deriving Repr, DecidableEq

/-- The mutable state of an `AmfService` instance: the session fields of
`setSource`, the private `#tmpIsFile` tag, and the parser-supervisor fields.
`procs` is the ledger of every worker forked so far (so that a killed
worker's liveness remains observable); `procRef` is `this._parserProc`. -/
structure AmfState where
  source : Option Source
  isZip : Option Bool
  validate : Option Bool
  tmpObj : Option TmpKind
  workingDir : Option String
  mainFile : Option String
  tmpIsFile : Bool
  procs : List ProcInfo
  procRef : Option Nat
  parseTimeout : Option Nat
  parseCb : Bool
  monitor : Option Timer
  msgListeners : Bool
  uncaughtError : Bool

/-- The state of a freshly constructed service. -/
def initState : AmfState :=
  { source := none, isZip := none, validate := none, tmpObj := none
    workingDir := none, mainFile := none, tmpIsFile := false
    procs := [], procRef := none, parseTimeout := none, parseCb := false
    monitor := none, msgListeners := false, uncaughtError := false }

/-- A disk with no session temp resources. -/
def initFs : Fs := { tmpFileExists := false, tmpDirTree := none, deleteCount := 0 }

/-- Processing options (`AmfServiceProcessingOptions`). -/
structure POpts where
  zip : Option Bool
  validate : Option Bool
  mainFile : Option String
deriving Repr, DecidableEq

/-- Empty options object. -/
def defaultPOpts : POpts := { zip := none, validate := none, mainFile := none }

/-- The environment's responses to the operations' external effects. -/
structure Oracle where
  /-- `fs.stat(source)` for a path source: `isDirectory()`, or a rejection. -/
  statSource : Except String Bool
  /-- `fs.readFile(source)` for a path source in `_unzipSource`. -/
  readFileResult : Except String Unit
  /-- whether `fs.write(fd, buffer)` on the temp file succeeds. -/
  writeOk : Bool
  /-- whether `fs.close(fd)` succeeds. -/
  closeOk : Bool
  /-- the extractor's outcome: the extracted top level, or an error event. -/
  unzipResult : Except String DirTree
  /-- whatever the extractor managed to write before an error event. -/
  leftoverTree : DirTree
  /-- `fs.pathExists` answers. -/
  pathExists : String → Bool
  /-- `ApiSearch.findApiFile()`: a rejection, or `undefined`, a single main
  file, or the candidate list. -/
  findApiResult : Except String (Option (String ⊕ List String))
  /-- `ApiSearch._readApiType` on the entry file. -/
  readApiType : Except String ApiType
  /-- settlement of the `_runParser` promise (the event-level supervisor
  model below produces exactly these outcomes). -/
  parserOutcome : Except String String

/-- `path.join(a, b)` for defined segments. -/
def pathJoin (a b : String) : String := a ++ "/" ++ b

/-- `path.basename` on a POSIX path. -/
def basename (p : String) : String := (p.splitOn "/").getLastD ""

/-- `path.dirname` on a POSIX path. -/
def dirname (p : String) : String :=
  String.intercalate "/" (p.splitOn "/").dropLast

/-- The path `tmp-promise`'s `file()` hands out in this model. -/
def tmpFilePath : String := "/tmp/amf/tmp-file"

/-- The path `tmp-promise`'s `dir()` hands out in this model. -/
def tmpDirPath : String := "/tmp/amf/tmp-dir"

/-! ## The supervisor's helper methods (timers and the worker process) -/

/-- `_cancelParseProcTimeout()`: if the handle is set, clear the timer and
unset both the handle and the stored callback. -/
def cancelParseProcTimeout (s : AmfState) : AmfState :=
  { s with parseTimeout := none
           parseCb := if s.parseTimeout.isSome then false else s.parseCb }

/-- `_cancelMonitorParser()`: `clearTimeout` on the handle if present; the
source does not unset the `_parserMonitorTimeout` field. -/
def cancelMonitorParser (s : AmfState) : AmfState :=
  { s with monitor := s.monitor.map (fun t => { t with armed := false }) }

/-- `_monitorParserProc()`: arm the 60000 ms idle kill timer. -/
def monitorParserProc (s : AmfState) : AmfState :=
  { s with monitor := some { duration := 60000, armed := true } }

/-- Mark the worker at index `i` of the ledger as killed and disconnected. -/
def setProcDead (ps : List ProcInfo) (i : Nat) : List ProcInfo :=
  ps.set i { alive := false, connected := false }

/-- `_killParser()`: cancel both timers, then disconnect, strip the
listeners, kill the referenced worker and drop the reference. -/
def killParser (s : AmfState) : AmfState :=
  let s1 := cancelMonitorParser (cancelParseProcTimeout s)
  { s1 with
      procs := match s1.procRef with
        | some i => setProcDead s1.procs i
        | none => s1.procs
      msgListeners := match s1.procRef with
        | some _ => false
        | none => s1.msgListeners
      procRef := none }

/-- `fork(...)`: spawn a fresh worker, record it in the ledger and reference
it. -/
def forkParser (s : AmfState) : AmfState × Nat :=
  let idx := s.procs.length
  ({ s with procs := s.procs ++ [{ alive := true, connected := true }]
            procRef := some idx },
   idx)

/-- `_createParserProcess()`: reuse the referenced worker while it is still
connected, otherwise kill the stale reference and fork a fresh worker. -/
def createParserProcess (s : AmfState) : AmfState × Nat :=
  match s.procRef with
  | some i =>
      if ((s.procs.getD i { alive := false, connected := false })).connected
      then (s, i)
      else forkParser (killParser s)
  | none => forkParser s

/-- The default of `_setParserProcTimeout`'s `time` parameter. -/
def defaultParseTimeoutMs : Nat := 180000

/-- `_runParser`'s synchronous prefix: cancel the idle timer, obtain a worker
(`_createParserProcess`), arm the parse timeout (`_setParserProcTimeout`),
attach the `message`/`error` listeners and send the request. -/
def runParserStart (s : AmfState) (time : Nat) : AmfState :=
  let s1 := cancelMonitorParser s
  let s2 := (createParserProcess s1).1
  { s2 with parseCb := true, parseTimeout := some time, msgListeners := true }

/-- A reply sent by the worker over the IPC channel. -/
inductive WorkerMsg
  | validation (v : String)
  | apiMsg (m : String)
  | errMsg (e : String)
deriving Repr, DecidableEq

/-- An asynchronous event delivered to the supervisor while a `_runParser`
promise is pending. -/
inductive SupEvent
  | message (m : WorkerMsg)
  | procError (e : String)
  | parseTimerFires
  | monitorTimerFires
deriving Repr, DecidableEq

/-- A settlement of the `_runParser` promise. -/
inductive Outcome
  | resolved (v : String)
  | rejected (e : String)
deriving Repr, DecidableEq

/-- One supervisor event, following the callbacks of `_runParser`,
`_setParserProcTimeout` and `_monitorParserProc` statement by statement. -/
def supStep (s : AmfState) : SupEvent → AmfState × List Outcome
  | SupEvent.message m =>
      if !s.msgListeners then (s, [])
      else
        match m with
        | WorkerMsg.validation _ => (s, [])
        | WorkerMsg.apiMsg v =>
            let s1 := cancelParseProcTimeout s
            let s2 := { s1 with msgListeners := false, parseCb := false }
            let s3 := monitorParserProc s2
            let s4 := killParser s3
            (s4, [Outcome.resolved v])
        | WorkerMsg.errMsg e =>
            let s1 := cancelParseProcTimeout s
            let s2 := { s1 with msgListeners := false, parseCb := false }
            let s3 := monitorParserProc s2
            let s4 := killParser s3
            (s4, [Outcome.rejected e])
  | SupEvent.procError e =>
      if !s.msgListeners then (s, [])
      else
        let s1 := cancelParseProcTimeout s
        let s2 := { s1 with msgListeners := false, parseCb := false }
        let s3 := monitorParserProc s2
        (s3, [Outcome.rejected e])
  | SupEvent.parseTimerFires =>
      match s.parseTimeout with
      | none => (s, [])
      | some _ =>
          let s1 := { s with parseTimeout := none }
          let s2 := killParser s1
          let hadCb := s2.parseCb
          let s3 := { s2 with parseCb := false }
          if hadCb then
            -- the callback rejects with the timeout error, then dereferences
            -- `this._parserProc` (already `undefined` after `_killParser`),
            -- throwing a TypeError inside the timer callback; the trailing
            -- `_monitorParserProc()` of the callback is never reached.
            ({ s3 with uncaughtError := true },
             [Outcome.rejected "API parsing timeout"])
          else ({ s3 with uncaughtError := true }, [])
  | SupEvent.monitorTimerFires =>
      match s.monitor with
      | some t =>
          if t.armed then killParser { s with monitor := none } |> (·, [])
          else (s, [])
      | none => (s, [])

/-- Deliver a list of supervisor events in order, collecting the promise
settlements they produce. -/
def supRun (s : AmfState) : List SupEvent → AmfState × List Outcome
  | [] => (s, [])
  | e :: es =>
      let r1 := supStep s e
      let r2 := supRun r1.1 es
      (r2.1, r1.2 ++ r2.2)

/-! ## The session methods of `AmfService` -/

/-- `setSource(source, opts)`: store the new source and options and drop the
prior session's `tmpObj`/`workingDir`/`mainFile`.  The private `#tmpIsFile`
field is not touched by the source. -/
def setSource (s : AmfState) (src : Source) (opts : POpts) : AmfState :=
  { s with source := some src, isZip := opts.zip, validate := opts.validate
           tmpObj := none, workingDir := none, mainFile := none }

/-- `_cleanTempFiles()`: nothing to do without a tmp object; for a temp file
just `cleanup()`; for a temp directory `emptyDir` then `cleanup()`.  The
branch is chosen by the `#tmpIsFile` tag, not by what `tmpObj` references. -/
def cleanTempFiles (s : AmfState) (fs : Fs) : AmfState × Fs :=
  match s.tmpObj with
  | none => (s, fs)
  | some k =>
      if s.tmpIsFile then
        ({ s with tmpObj := none }, tmpCleanupCall fs k)
      else
        ({ s with tmpObj := none }, tmpCleanupCall (fsEmpty fs k) k)

/-- `cancel()`: clean the temp resources and unset the session fields. -/
def cancelOp (s : AmfState) (fs : Fs) : AmfState × Fs :=
  let r := cleanTempFiles s fs
  ({ r.1 with tmpObj := none, workingDir := none, mainFile := none }, r.2)

/-- `cleanup()`: cancel both timers; without a live worker just `cancel()`;
otherwise `_killParser()` and, once the process exits, `cancel()`. -/
def cleanupOp (s : AmfState) (fs : Fs) : AmfState × Fs :=
  let s1 := cancelMonitorParser s
  let s2 := cancelParseProcTimeout s1
  match s2.procRef with
  | none => cancelOp s2 fs
  | some _ => cancelOp (killParser s2) fs

/-- `_tmpBuffer(buffer)`: create the temp file, tag the session with
`#tmpIsFile = true`, then write and close.  A failing write or close
propagates out of `prepare` with no handler. -/
def tmpBuffer (s : AmfState) (o : Oracle) (fs : Fs) :
    Except JsErr String × AmfState × Fs :=
  let fs1 : Fs := { fs with tmpFileExists := true }
  let s1 : AmfState := { s with tmpObj := some TmpKind.tmpFile, tmpIsFile := true }
  if !o.writeOk then (Except.error (JsErr.err "EWRITE"), s1, fs1)
  else if !o.closeOk then (Except.error (JsErr.err "ECLOSE"), s1, fs1)
  else (Except.ok tmpFilePath, s1, fs1)

/-- `_prepareBuffer()`: write the buffer to a temp file; its parent becomes
the working directory and the file itself the entry file. -/
def prepareBuffer (s : AmfState) (o : Oracle) (fs : Fs) :
    Except JsErr Unit × AmfState × Fs :=
  match tmpBuffer s o fs with
  | (Except.error e, s1, fs1) => (Except.error e, s1, fs1)
  | (Except.ok location, s1, fs1) =>
      (Except.ok (),
       { s1 with workingDir := some (dirname location)
                 mainFile := some (basename location) },
       fs1)

/-- `_unzip(buffer)`: create the temp directory, reference it in `tmpObj`,
then stream the buffer through the extractor. -/
def unzip (s : AmfState) (o : Oracle) (fs : Fs) :
    Except JsErr String × AmfState × Fs :=
  let s1 : AmfState := { s with tmpObj := some TmpKind.tmpDir }
  match o.unzipResult with
  | Except.ok tree =>
      (Except.ok tmpDirPath, s1, { fs with tmpDirTree := some tree })
  | Except.error e =>
      (Except.error (JsErr.err e), s1, { fs with tmpDirTree := some o.leftoverTree })

/-- `_removeZipMainFolder(destination)` acting on the temp directory:
`readdir`, drop `__MACOSX`, return if more than one entry remains, otherwise
`path.join` with the first entry (a `TypeError` when the list is empty),
`stat` it and, if a directory, `fs.copy` its contents up. -/
def removeZipMainFolder (fs : Fs) : Except JsErr Unit × Fs :=
  match fs.tmpDirTree with
  | none => (Except.error (JsErr.err "ENOENT"), fs)
  | some tree =>
      let files := (entryNames tree).filter (fun n => n ≠ "__MACOSX")
      if files.length > 1 then (Except.ok (), fs)
      else
        match files[0]? with
        | none => (Except.error JsErr.typeErr, fs)
        | some name =>
            match findEntry tree name with
            | some (Entry.dirE _ children) =>
                (Except.ok (), { fs with tmpDirTree := some (mergeEntries tree children) })
            | some (Entry.fileE _) => (Except.ok (), fs)
            | none => (Except.error (JsErr.err "ENOENT"), fs)

/-- `_unzipSource()`: obtain the zip bytes, unzip them into the temp
directory, set the working directory, then normalise the single root
folder. -/
def unzipSource (s : AmfState) (o : Oracle) (fs : Fs) :
    Except JsErr Unit × AmfState × Fs :=
  let bufRes : Except JsErr Unit :=
    match s.source with
    | some (Source.buffer _) => Except.ok ()
    | some (Source.path _) =>
        match o.readFileResult with
        | Except.ok _ => Except.ok ()
        | Except.error e => Except.error (JsErr.err e)
    | none => Except.error (JsErr.err "ERR_INVALID_ARG_TYPE")
  match bufRes with
  | Except.error e => (Except.error e, s, fs)
  | Except.ok _ =>
      match unzip s o fs with
      | (Except.error e, s1, fs1) => (Except.error e, s1, fs1)
      | (Except.ok location, s1, fs1) =>
          let s2 : AmfState := { s1 with workingDir := some location }
          match removeZipMainFolder fs1 with
          | (Except.error e, fs2) => (Except.error e, s2, fs2)
          | (Except.ok _, fs2) => (Except.ok (), s2, fs2)

/-- `_prepareZip()`: `_unzipSource`, cleaning the temp files before
re-throwing any failure. -/
def prepareZip (s : AmfState) (o : Oracle) (fs : Fs) :
    Except JsErr Unit × AmfState × Fs :=
  match unzipSource s o fs with
  | (Except.error e, s1, fs1) =>
      let r := cleanTempFiles s1 fs1
      (Except.error e, r.1, r.2)
  | (Except.ok _, s1, fs1) => (Except.ok (), s1, fs1)

/-- `prepare()`: the zip path when the zip option is truthy, the buffer path
for an in-memory source, otherwise `stat` the path source and use it as the
working directory (a directory) or as working directory plus entry file
(a file). -/
def prepare (s : AmfState) (o : Oracle) (fs : Fs) :
    Except JsErr Unit × AmfState × Fs :=
  if jsOptTrue s.isZip then prepareZip s o fs
  else
    match s.source with
    | some (Source.buffer _) => prepareBuffer s o fs
    | some (Source.path p) =>
        match o.statSource with
        | Except.error e => (Except.error (JsErr.err e), s, fs)
        | Except.ok isDir =>
            if isDir then (Except.ok (), { s with workingDir := some p }, fs)
            else
              (Except.ok (),
               { s with workingDir := some (dirname p)
                        mainFile := some (basename p) },
               fs)
    | none => (Except.error (JsErr.err "ERR_INVALID_ARG_TYPE"), s, fs)

/-- The tail of `resolve()` that consults `ApiSearch.findApiFile()`, cleaning
the temp files before re-throwing any failure (including an `undefined`
result), returning the candidate list, or pinning the single main file. -/
def resolveSearch (s : AmfState) (o : Oracle) (fs : Fs) :
    Except JsErr (Option (List String)) × AmfState × Fs :=
  match o.findApiResult with
  | Except.error e =>
      let r := cleanTempFiles s fs
      (Except.error (JsErr.err e), r.1, r.2)
  | Except.ok none =>
      let r := cleanTempFiles s fs
      (Except.error (JsErr.err "Unable to find API files in the source location"), r.1, r.2)
  | Except.ok (some (Sum.inl f)) =>
      if f.isEmpty then
        let r := cleanTempFiles s fs
        (Except.error (JsErr.err "Unable to find API files in the source location"), r.1, r.2)
      else (Except.ok none, { s with mainFile := some f }, fs)
  | Except.ok (some (Sum.inr arr)) => (Except.ok (some arr), s, fs)

/-- `resolve(mainFile)`: return at once for a temp-file session or a pinned
entry file; a missing working directory is a usage error (after cleaning);
a caller-supplied name is checked with `const exists = fs.pathExists(file)`
— the source does not `await` it, so the binding holds the pending `Promise`
object, which is always truthy; otherwise search for the main file. -/
def resolveOp (s : AmfState) (o : Oracle) (fs : Fs) (mf : Option String) :
    Except JsErr (Option (List String)) × AmfState × Fs :=
  if s.tmpIsFile then (Except.ok none, s, fs)
  else
    match s.workingDir with
    | none =>
        let r := cleanTempFiles s fs
        (Except.error (JsErr.err "prepare() function not called"), r.1, r.2)
    | some wd =>
        if jsStrOptTruthy s.mainFile then (Except.ok none, s, fs)
        else
          match mf with
          | some m =>
              if m.isEmpty then resolveSearch s o fs
              else
                let existsVal : JsVal := JsVal.promiseOf (o.pathExists (pathJoin wd m))
                if jsTruthy existsVal then
                  (Except.ok none, { s with mainFile := some m }, fs)
                else
                  (Except.error (JsErr.err "API main file does not exist."), s, fs)
          | none => resolveSearch s o fs

/-- `parse(mainFile)`: usage errors (after cleaning) when `prepare` or
`resolve` has not run; otherwise read the API type and run the parser,
cleaning the temp files on success and on every failure. -/
def parseOp (s : AmfState) (o : Oracle) (fs : Fs) (mf : Option String) :
    Except JsErr ParseResult × AmfState × Fs :=
  match s.workingDir with
  | none =>
      let r := cleanTempFiles s fs
      (Except.error (JsErr.err "prepare() function not called"), r.1, r.2)
  | some _ =>
      let s1 : AmfState :=
        match mf with
        | some m => if m.isEmpty then s else { s with mainFile := some m }
        | none => s
      if !jsStrOptTruthy s1.mainFile then
        let r := cleanTempFiles s1 fs
        (Except.error (JsErr.err "resolve() function not called"), r.1, r.2)
      else
        match o.readApiType with
        | Except.error e =>
            let r := cleanTempFiles s1 fs
            (Except.error (JsErr.err e), r.1, r.2)
        | Except.ok t =>
            match o.parserOutcome with
            | Except.error e =>
                let r := cleanTempFiles s1 fs
                (Except.error (JsErr.err e), r.1, r.2)
            | Except.ok m =>
                let r := cleanTempFiles s1 fs
                (Except.ok { model := m, rType := t }, r.1, r.2)

/-! ## The renderer's archive auto-detection (`ElectronAmfService`) -/

/-- `_bufferIsZip(buffer)`: the first two bytes are the zip signature
`0x50 0x4B` (out-of-range Buffer reads give `undefined`, which compares
unequal). -/
def bufferIsZip (b : List Nat) : Bool :=
  (b[0]? == some 0x50) && (b[1]? == some 0x4b)

/-- The option adjustment at the top of `processBuffer`: when the caller did
not flag a zip but the buffer carries the zip signature, force the zip
option. -/
def processBufferOpts (b : List Nat) (opts : POpts) : POpts :=
  if !jsOptTrue opts.zip && bufferIsZip b then { opts with zip := some true }
  else opts

/-! ## Derived predicates and concrete fixtures used by the theorems -/

/-- `Except.ok`-ness as a boolean. -/
def exceptOk {ε α : Type} : Except ε α → Bool
  | Except.ok _ => true
  | Except.error _ => false

/-- Liveness of the worker at ledger index `i` (a never-spawned index reads
as not alive). -/
def procAliveAt (s : AmfState) (i : Nat) : Bool :=
  ((s.procs.getD i { alive := false, connected := false })).alive

/-- Whether an armed idle (monitor) timer is pending. -/
def monitorArmed (s : AmfState) : Bool :=
  match s.monitor with
  | some t => t.armed
  | none => false

/-- Session/disk consistency: the `#tmpIsFile` tag agrees with what `tmpObj`
references, and any temp resource on disk is the one `tmpObj` references.
Every state a single session reaches from a fresh service satisfies this. -/
def tmpConsistent (s : AmfState) (fs : Fs) : Prop :=
  (s.tmpObj = some TmpKind.tmpFile → s.tmpIsFile = true)
  ∧ (s.tmpObj = some TmpKind.tmpDir → s.tmpIsFile = false)
  ∧ (fs.tmpFileExists = true → s.tmpObj = some TmpKind.tmpFile)
  ∧ (fs.tmpDirTree.isSome = true → s.tmpObj = some TmpKind.tmpDir)

/-- An environment in which every external effect succeeds blandly. -/
def baseOracle : Oracle :=
  { statSource := Except.ok false, readFileResult := Except.ok ()
    writeOk := true, closeOk := true
    unzipResult := Except.ok [], leftoverTree := []
    pathExists := fun _ => false
    findApiResult := Except.ok none
    readApiType := Except.ok { type := "RAML 1.0", contentType := "application/raml" }
    parserOutcome := Except.ok "MODEL" }

/-- An archive whose extracted top level is a single root folder wrapping two
files. -/
def wrapTree : DirTree := [Entry.dirE "root" [Entry.fileE "a.raml", Entry.fileE "b.raml"]]

/-- A session started on a zip buffer. -/
def zipState : AmfState :=
  setSource initState (Source.buffer [0x50, 0x4b]) { defaultPOpts with zip := some true }

/-- A session started on a plain (non-zip) buffer. -/
def bufState : AmfState := setSource initState (Source.buffer [1, 2, 3]) defaultPOpts

/-- The environment for the wrapped-archive scenarios. -/
def wrapOracle : Oracle := { baseOracle with unzipResult := Except.ok wrapTree }

/-- The environment in which the write to the temp file fails. -/
def failWriteOracle : Oracle := { baseOracle with writeOk := false }

/-- The session state after a buffer `prepare` in the bland environment. -/
def bufPrepared : AmfState := (prepare bufState baseOracle initFs).2.1

/-- The disk state after a buffer `prepare` in the bland environment. -/
def bufPreparedFs : Fs := (prepare bufState baseOracle initFs).2.2

/-- The supervisor state right after `_runParser` starts a request on a fresh
service with the default timeout. -/
def c3Start : AmfState := runParserStart initState defaultParseTimeoutMs

/-- A session after a zip `prepare` whose `resolve` stayed ambiguous: the
working directory is set, the temp directory exists, no entry file is
pinned. -/
def ambiguousState : AmfState :=
  { initState with workingDir := some "/w", tmpObj := some TmpKind.tmpDir }

/-- The disk matching `ambiguousState`. -/
def ambiguousFs : Fs := { initFs with tmpDirTree := some wrapTree }

/-! ## Helper lemmas -/

/-- In a consistent session, `_cleanTempFiles` removes every session temp
resource from disk and drops the `tmpObj` reference. -/
theorem cleanTempFiles_clean (s : AmfState) (fs : Fs) (h : tmpConsistent s fs) :
    fsNoTemp (cleanTempFiles s fs).2 = true ∧ (cleanTempFiles s fs).1.tmpObj = none := by
  obtain ⟨h1, h2, h3, h4⟩ := h
  rcases hobj : s.tmpObj with _ | k
  · have hff : fs.tmpFileExists = false := by
      cases hf : fs.tmpFileExists
      · rfl
      · exact absurd (h3 hf) (by simp [hobj])
    have hfd : fs.tmpDirTree = none := by
      cases hd : fs.tmpDirTree with
      | none => rfl
      | some t => exact absurd (h4 (by simp [hd])) (by simp [hobj])
    simp [cleanTempFiles, hobj, fsNoTemp, hff, hfd]
  · rcases k with _ | _
    · have hti : s.tmpIsFile = true := h1 hobj
      have hfd : fs.tmpDirTree = none := by
        cases hd : fs.tmpDirTree with
        | none => rfl
        | some t => simpa [hobj] using h4 (by simp [hd])
      simp [cleanTempFiles, hobj, hti, tmpCleanupCall, rmTmpFile, fsNoTemp, hfd]
      cases hf : fs.tmpFileExists <;> simp [hf, hfd]
    · have hti : s.tmpIsFile = false := h2 hobj
      have hff : fs.tmpFileExists = false := by
        cases hf : fs.tmpFileExists
        · rfl
        · simpa [hobj] using h3 hf
      simp [cleanTempFiles, hobj, hti, tmpCleanupCall, fsEmpty, fsNoTemp]
      cases hd : fs.tmpDirTree <;> simp [emptyTmpDir, rmTmpDir, hd, hff]

/-- In a consistent session, `cancel()` removes every session temp resource
from disk and drops the `tmpObj` reference. -/
theorem cancelOp_clean (s : AmfState) (fs : Fs) (h : tmpConsistent s fs) :
    fsNoTemp (cancelOp s fs).2 = true ∧ (cancelOp s fs).1.tmpObj = none := by
  have hc := cleanTempFiles_clean s fs h
  exact ⟨hc.1, rfl⟩

/-- fs-extra's merge keeps every name already present in the destination. -/
theorem mem_entryNames_mergeEntry (es : List Entry) (c : Entry) (n : String)
    (h : n ∈ entryNames es) : n ∈ entryNames (mergeEntry es c) := by
  unfold mergeEntry
  by_cases hany : es.any (fun e => entryName e == entryName c)
  · rw [if_pos hany]
    obtain ⟨e, he, hne⟩ := List.mem_map.mp h
    unfold entryNames
    rw [List.map_map]
    refine List.mem_map.mpr ⟨e, he, ?_⟩
    show entryName (if (entryName e == entryName c) = true then c else e) = n
    by_cases heq : (entryName e == entryName c) = true
    · rw [if_pos heq, ← hne]
      exact (eq_of_beq heq).symm
    · rw [if_neg heq]
      exact hne
  · rw [if_neg hany]
    unfold entryNames
    rw [List.map_append]
    exact List.mem_append_left _ h

/-- fs-extra's merge makes the copied child's name present in the
destination. -/
theorem mem_entryNames_mergeEntry_self (es : List Entry) (c : Entry) :
    entryName c ∈ entryNames (mergeEntry es c) := by
  unfold mergeEntry
  by_cases hany : es.any (fun e => entryName e == entryName c)
  · rw [if_pos hany]
    obtain ⟨e, he, hbe⟩ := List.any_eq_true.mp hany
    unfold entryNames
    rw [List.map_map]
    refine List.mem_map.mpr ⟨e, he, ?_⟩
    show entryName (if (entryName e == entryName c) = true then c else e) = entryName c
    rw [if_pos hbe]
  · rw [if_neg hany]
    unfold entryNames
    rw [List.map_append]
    exact List.mem_append_right _ (by simp)

/-- After a full merge, every destination name and every copied child name is
present. -/
theorem entryNames_mergeEntries (cs : List Entry) (es : List Entry) :
    (∀ n ∈ entryNames es, n ∈ entryNames (mergeEntries es cs))
    ∧ (∀ c ∈ cs, entryName c ∈ entryNames (mergeEntries es cs)) := by
  induction cs generalizing es with
  | nil =>
      refine ⟨fun n hn => hn, fun c hc => ?_⟩
      exact absurd hc (List.not_mem_nil _)
  | cons c cs ih =>
      have hstep : mergeEntries es (c :: cs) = mergeEntries (mergeEntry es c) cs := rfl
      constructor
      · intro n hn
        rw [hstep]
        exact (ih (mergeEntry es c)).1 n (mem_entryNames_mergeEntry es c n hn)
      · intro c' hc'
        rw [hstep]
        rcases List.mem_cons.mp hc' with hh | ht
        · rw [hh]
          exact (ih (mergeEntry es c)).1 _ (mem_entryNames_mergeEntry_self es c)
        · exact (ih (mergeEntry es c)).2 c' ht

/-- A destination entry whose name clashes with no copied child survives the
merge untouched. -/
theorem mem_mergeEntries_of_no_clash (cs : List Entry) (es : List Entry) (e : Entry)
    (he : e ∈ es) (hno : ∀ c ∈ cs, entryName c ≠ entryName e) :
    e ∈ mergeEntries es cs := by
  induction cs generalizing es with
  | nil => exact he
  | cons c cs ih =>
      have hstep : mergeEntries es (c :: cs) = mergeEntries (mergeEntry es c) cs := rfl
      rw [hstep]
      refine ih (mergeEntry es c) ?_ (fun c' hc' => hno c' (List.mem_cons_of_mem _ hc'))
      unfold mergeEntry
      by_cases hany : es.any (fun x => entryName x == entryName c)
      · rw [if_pos hany]
        refine List.mem_map.mpr ⟨e, he, ?_⟩
        have hne : (entryName e == entryName c) = false := by
          have hx := hno c (List.mem_cons_self c cs)
          simp only [beq_eq_false_iff_ne, ne_eq]
          exact fun hcontra => hx hcontra.symm
        show (if (entryName e == entryName c) = true then c else e) = e
        rw [hne]
        simp
      · rw [if_neg hany]
        exact List.mem_append_left _ he

/-- Killing the worker at the referenced ledger index leaves it not alive. -/
theorem alive_getD_setProcDead (ps : List ProcInfo) (i : Nat) :
    (((setProcDead ps i)[i]?).getD { alive := false, connected := false }).alive = false := by
  induction ps generalizing i with
  | nil => simp [setProcDead]
  | cons p ps ih =>
      cases i with
      | zero => simp [setProcDead]
      | succ n => simpa [setProcDead] using ih n

/-- `_killParser` on a state that references worker `i` leaves worker `i` not
alive. -/
theorem killParser_aliveAt (s : AmfState) (i : Nat) (h : s.procRef = some i) :
    procAliveAt (killParser s) i = false := by
  unfold killParser procAliveAt
  simp only [cancelMonitorParser, cancelParseProcTimeout]
  simp [h, List.getD, alive_getD_setProcDead]

/-- A `{validation}` message is informational: the supervisor logs it and
keeps waiting. -/
theorem supStep_validation (s : AmfState) (v : String) :
    supStep s (SupEvent.message (WorkerMsg.validation v)) = (s, []) := by
  cases h : s.msgListeners <;> simp [supStep, h]

/-- A run made only of `{validation}` messages changes nothing and settles
nothing. -/
theorem supRun_validation_only (s : AmfState) (evs : List SupEvent)
    (hv : ∀ e ∈ evs, ∃ v, e = SupEvent.message (WorkerMsg.validation v)) :
    supRun s evs = (s, []) := by
  induction evs with
  | nil => rfl
  | cons e es ih =>
      obtain ⟨v, hev⟩ := hv e (List.mem_cons_self e es)
      subst hev
      show (let r1 := supStep s (SupEvent.message (WorkerMsg.validation v));
            let r2 := supRun r1.1 es; (r2.1, r1.2 ++ r2.2)) = (s, [])
      rw [supStep_validation]
      simp [ih (fun e he => hv e (List.mem_cons_of_mem _ he))]

/-- When the armed parse timer of a request referencing worker `i` fires, the
worker ends up not alive. -/
theorem supStep_fire_kill (s1 : AmfState) (i : Nat) (t : Nat)
    (hpt : s1.parseTimeout = some t) (hi : s1.procRef = some i) :
    procAliveAt (supStep s1 SupEvent.parseTimerFires).1 i = false := by
  cases hcb : s1.parseCb <;>
  simp [supStep, hpt, hcb, killParser, cancelParseProcTimeout, cancelMonitorParser, hi,
    procAliveAt, List.getD, alive_getD_setProcDead]

/-- `_removeZipMainFolder` never touches the temp file. -/
theorem removeZipMainFolder_keeps_tmpFile (fs : Fs) :
    (removeZipMainFolder fs).2.tmpFileExists = fs.tmpFileExists := by
  unfold removeZipMainFolder
  rcases hd : fs.tmpDirTree with _ | tree
  · simp [hd]
  · simp only [hd]
    split
    · rfl
    · split
      · rfl
      · split <;> rfl

/-- The search tail of `resolve` either succeeds or leaves no temp resource
on disk. -/
theorem resolveSearch_exit_clean (s : AmfState) (o : Oracle) (fs : Fs)
    (hcons : tmpConsistent s fs) :
    exceptOk (resolveSearch s o fs).1 = true ∨ fsNoTemp (resolveSearch s o fs).2.2 = true := by
  unfold resolveSearch
  rcases hfa : o.findApiResult with e | r
  · right
    simpa [hfa] using (cleanTempFiles_clean s fs hcons).1
  · rcases r with _ | fr
    · right
      simpa [hfa] using (cleanTempFiles_clean s fs hcons).1
    · rcases fr with f | arr
      · by_cases hfe : f.isEmpty
        · right
          simpa [hfa, hfe] using (cleanTempFiles_clean s fs hcons).1
        · left
          simp [hfa, hfe, exceptOk]
      · left
        simp [hfa, exceptOk]

/-- `resolve` either succeeds or leaves no temp resource on disk. -/
theorem resolveOp_exit_clean (s : AmfState) (o : Oracle) (fs : Fs) (mf : Option String)
    (hcons : tmpConsistent s fs) :
    exceptOk (resolveOp s o fs mf).1 = true ∨ fsNoTemp (resolveOp s o fs mf).2.2 = true := by
  unfold resolveOp
  cases hti : s.tmpIsFile
  · rcases hw : s.workingDir with _ | wd
    · right
      simpa [hti, hw] using (cleanTempFiles_clean s fs hcons).1
    · by_cases hmf : jsStrOptTruthy s.mainFile
      · left
        simp [hti, hw, hmf, exceptOk]
      · rcases mf with _ | m
        · simpa [hti, hw, hmf] using resolveSearch_exit_clean s o fs hcons
        · by_cases hme : m.isEmpty
          · simpa [hti, hw, hmf, hme] using resolveSearch_exit_clean s o fs hcons
          · left
            simp [hti, hw, hmf, hme, jsTruthy, exceptOk]
  · left
    simp [hti, exceptOk]

/-- `parse` leaves no temp resource on disk, on success and on every
failure. -/
theorem parseOp_exit_clean (s : AmfState) (o : Oracle) (fs : Fs) (mf : Option String)
    (hcons : tmpConsistent s fs) : fsNoTemp (parseOp s o fs mf).2.2 = true := by
  unfold parseOp
  rcases hw : s.workingDir with _ | wd
  · simpa [hw] using (cleanTempFiles_clean s fs hcons).1
  · have step : ∀ s1 : AmfState, s1.tmpObj = s.tmpObj → s1.tmpIsFile = s.tmpIsFile →
        fsNoTemp (cleanTempFiles s1 fs).2 = true := by
      intro s1 h1 h2
      refine (cleanTempFiles_clean s1 fs ?_).1
      obtain ⟨k1, k2, k3, k4⟩ := hcons
      refine ⟨?_, ?_, ?_, ?_⟩
      · rw [h1, h2]; exact k1
      · rw [h1, h2]; exact k2
      · rw [h1]; exact k3
      · rw [h1]; exact k4
    rcases mf with _ | m
    · by_cases hmf : jsStrOptTruthy s.mainFile
      · rcases ht : o.readApiType with e | t
        · simpa [hw, hmf, ht] using step s rfl rfl
        · rcases hp : o.parserOutcome with e | m'
          · simpa [hw, hmf, ht, hp] using step s rfl rfl
          · simpa [hw, hmf, ht, hp] using step s rfl rfl
      · simpa [hw, hmf] using step s rfl rfl
    · by_cases hme : m.isEmpty
      · by_cases hmf : jsStrOptTruthy s.mainFile
        · rcases ht : o.readApiType with e | t
          · simpa [hw, hme, hmf, ht] using step s rfl rfl
          · rcases hp : o.parserOutcome with e | m'
            · simpa [hw, hme, hmf, ht, hp] using step s rfl rfl
            · simpa [hw, hme, hmf, ht, hp] using step s rfl rfl
        · simpa [hw, hme, hmf] using step s rfl rfl
      · rcases ht : o.readApiType with e | t
        · simpa [hw, hme, jsStrOptTruthy, ht] using
            step { s with mainFile := some m } rfl rfl
        · rcases hp : o.parserOutcome with e | m'
          · simpa [hw, hme, jsStrOptTruthy, ht, hp] using
              step { s with mainFile := some m } rfl rfl
          · simpa [hw, hme, jsStrOptTruthy, ht, hp] using
              step { s with mainFile := some m } rfl rfl

/-- A zip `prepare` (in a session whose tag is not temp-is-file, as every
zip session is) either succeeds or leaves no temp resource on disk. -/
theorem prepareZip_exit_clean (s : AmfState) (o : Oracle) (fs : Fs)
    (hti : s.tmpIsFile = false) (hcons : tmpConsistent s fs) :
    exceptOk (prepareZip s o fs).1 = true ∨ fsNoTemp (prepareZip s o fs).2.2 = true := by
  have hff : fs.tmpFileExists = false := by
    cases hf : fs.tmpFileExists
    · rfl
    · have h1 := hcons.2.2.1 hf
      have h2 := hcons.1 h1
      rw [hti] at h2
      exact absurd h2 (by simp)
  have hdir : ∀ (s1 : AmfState) (fs2 : Fs), s1.tmpObj = some TmpKind.tmpDir →
      s1.tmpIsFile = false → fs2.tmpFileExists = false →
      fsNoTemp (cleanTempFiles s1 fs2).2 = true := by
    intro s1 fs2 h1 hti2 hf2
    refine (cleanTempFiles_clean s1 fs2 ?_).1
    refine ⟨?_, fun _ => hti2, ?_, fun _ => h1⟩
    · intro hcontra
      rw [h1] at hcontra
      exact absurd hcontra (by simp)
    · intro hcontra
      rw [hf2] at hcontra
      exact absurd hcontra (by simp)
  unfold prepareZip unzipSource unzip
  rcases hs : s.source with _ | src
  · right
    simpa [hs] using (cleanTempFiles_clean s fs hcons).1
  · rcases src with bytes | p
    · rcases hu : o.unzipResult with e | tree
      · right
        simpa [hs, hu] using hdir { s with tmpObj := some TmpKind.tmpDir }
          { fs with tmpDirTree := some o.leftoverTree } rfl hti hff
      · rcases hrm : removeZipMainFolder { fs with tmpDirTree := some tree } with ⟨rres, fs2⟩
        have hf2 : fs2.tmpFileExists = false := by
          have hk := removeZipMainFolder_keeps_tmpFile { fs with tmpDirTree := some tree }
          rw [hrm] at hk
          simpa [hff] using hk
        rcases rres with e | u
        · right
          simpa [hs, hu, hrm] using hdir
            { s with tmpObj := some TmpKind.tmpDir, workingDir := some tmpDirPath }
            fs2 rfl hti hf2
        · left
          simp [hs, hu, hrm, exceptOk]
    · rcases hrf : o.readFileResult with e | u0
      · right
        simpa [hs, hrf] using (cleanTempFiles_clean s fs hcons).1
      · rcases hu : o.unzipResult with e | tree
        · right
          simpa [hs, hrf, hu] using hdir { s with tmpObj := some TmpKind.tmpDir }
            { fs with tmpDirTree := some o.leftoverTree } rfl hti hff
        · rcases hrm : removeZipMainFolder { fs with tmpDirTree := some tree } with ⟨rres, fs2⟩
          have hf2 : fs2.tmpFileExists = false := by
            have hk := removeZipMainFolder_keeps_tmpFile { fs with tmpDirTree := some tree }
            rw [hrm] at hk
            simpa [hff] using hk
          rcases rres with e | u
          · right
            simpa [hs, hrf, hu, hrm] using hdir
              { s with tmpObj := some TmpKind.tmpDir, workingDir := some tmpDirPath }
              fs2 rfl hti hf2
          · left
            simp [hs, hrf, hu, hrm, exceptOk]

/-! ## Claim C2 -/

/-- Claim C2, evaluated at the failing input: the source assigns
`const exists = fs.pathExists(file)` without `await`, so the binding holds a
pending `Promise` object, which is truthy.  `resolve('missing.raml')` on a
prepared session therefore succeeds and pins the nonexistent name as the
entry file, even though `pathExists` answers `false`; the
`API main file does not exist.` throw is unreachable. -/
theorem c2_missing_mainFile_is_accepted :
    (resolveOp { initState with workingDir := some "/work" } baseOracle initFs
        (some "missing.raml")).1 = Except.ok none
    ∧ (resolveOp { initState with workingDir := some "/work" } baseOracle initFs
        (some "missing.raml")).2.1.mainFile = some "missing.raml"
    ∧ baseOracle.pathExists (pathJoin "/work" "missing.raml") = false :=
  ⟨rfl, rfl, rfl⟩

/-! ## Claim C7 -/

/-- Claim C7, counterexample: in the reachable state after a buffer-session
`prepare` (which sets the private `#tmpIsFile` tag), re-initialising with
`setSource` leaves the tag `true` — not its initial value `false`. -/
theorem c7_counterexample :
    initState.tmpIsFile = false
    ∧ (prepare bufState baseOracle initFs).2.1.tmpIsFile = true
    ∧ (setSource (prepare bufState baseOracle initFs).2.1 (Source.buffer [9])
        defaultPOpts).tmpIsFile = true :=
  ⟨rfl, rfl, rfl⟩

/-- Claim C7 as amended: `setSource` resets the temp-resource handle, the
working-directory path and the resolved entry-file name to their initial
unset values and stores the new source and options, but it leaves the
temp-is-file tag at whatever value the prior session gave it (nothing in the
class ever resets the tag to `false`). -/
theorem c7_setSource_resets_session_fields (s : AmfState) (src : Source) (opts : POpts) :
    (setSource s src opts).tmpObj = none
    ∧ (setSource s src opts).workingDir = none
    ∧ (setSource s src opts).mainFile = none
    ∧ (setSource s src opts).source = some src
    ∧ (setSource s src opts).isZip = opts.zip
    ∧ (setSource s src opts).tmpIsFile = s.tmpIsFile :=
  ⟨rfl, rfl, rfl, rfl, rfl, rfl⟩

/-! ## Claim C8 -/

/-- Claim C8: a buffer beginning with the zip signature `0x50 0x4B` is
auto-detected as an archive by `processBuffer` even when the caller did not
set the zip option: the forced option makes `prepare` take the archive path,
so the working directory is the freshly created temp directory holding the
unpacked contents, `tmpObj` references the temp directory, and the session
is not tagged temp-is-file — so `resolve` will search the unpacked
contents. -/
theorem c8_zip_signature_autodetect (bs : List Nat) (opts : POpts) (o : Oracle)
    (tree : DirTree)
    (h0 : bs[0]? = some 0x50) (h1 : bs[1]? = some 0x4b)
    (hz : jsOptTrue opts.zip = false)
    (hu : o.unzipResult = Except.ok tree)
    (hbig : ((entryNames tree).filter (fun n => n ≠ "__MACOSX")).length > 1) :
    (processBufferOpts bs opts).zip = some true
    ∧ (prepare (setSource initState (Source.buffer bs) (processBufferOpts bs opts))
        o initFs).1 = Except.ok ()
    ∧ (prepare (setSource initState (Source.buffer bs) (processBufferOpts bs opts))
        o initFs).2.1.workingDir = some tmpDirPath
    ∧ (prepare (setSource initState (Source.buffer bs) (processBufferOpts bs opts))
        o initFs).2.1.tmpObj = some TmpKind.tmpDir
    ∧ (prepare (setSource initState (Source.buffer bs) (processBufferOpts bs opts))
        o initFs).2.2.tmpDirTree = some tree
    ∧ (prepare (setSource initState (Source.buffer bs) (processBufferOpts bs opts))
        o initFs).2.1.tmpIsFile = false := by
  have hsig : bufferIsZip bs = true := by
    simp [bufferIsZip, h0, h1]
  have hopts : (processBufferOpts bs opts).zip = some true := by
    simp [processBufferOpts, hz, hsig]
  have hbig' : 1 < (List.filter (fun n => !decide (n = "__MACOSX")) (entryNames tree)).length := by
    simpa using hbig
  refine ⟨hopts, ?_, ?_, ?_, ?_, ?_⟩ <;>
    simp [prepare, setSource, initState, jsOptTrue, hopts, prepareZip, unzipSource,
      unzip, hu, removeZipMainFolder, hbig']

/-- Claim C8, witness: the concrete buffer `[0x50, 0x4B, 7]` with no zip
option and an archive holding two top-level files. -/
theorem c8_zip_signature_autodetect_witness :
    ([0x50, 0x4b, 7] : List Nat)[0]? = some 0x50
    ∧ (prepare (setSource initState (Source.buffer [0x50, 0x4b, 7])
          (processBufferOpts [0x50, 0x4b, 7] defaultPOpts))
        { baseOracle with unzipResult := Except.ok [Entry.fileE "a", Entry.fileE "b"] }
        initFs).2.1.workingDir = some tmpDirPath := by
  refine ⟨rfl, ?_⟩
  exact (c8_zip_signature_autodetect [0x50, 0x4b, 7] defaultPOpts
    { baseOracle with unzipResult := Except.ok [Entry.fileE "a", Entry.fileE "b"] }
    [Entry.fileE "a", Entry.fileE "b"] rfl rfl rfl rfl (by decide)).2.2.1

/-! ## Claim C10 -/

/-- Claim C10: when the extracted archive's top level has no entry other
than `__MACOSX`, the normalisation step reads the first element of an empty
list and hands the resulting `undefined` to `path.join`, which throws — so
`prepare` fails and the partial temp directory is cleaned (deleted) before
the error propagates. -/
theorem c10_empty_top_level_throws (s : AmfState) (o : Oracle) (fs : Fs)
    (tree : DirTree) (bs : List Nat)
    (hz : jsOptTrue s.isZip = true)
    (hsrc : s.source = some (Source.buffer bs))
    (hti : s.tmpIsFile = false)
    (hu : o.unzipResult = Except.ok tree)
    (h0 : (entryNames tree).filter (fun n => n ≠ "__MACOSX") = []) :
    (prepare s o fs).1 = Except.error JsErr.typeErr
    ∧ (prepare s o fs).2.1.tmpObj = none
    ∧ (prepare s o fs).2.2.tmpDirTree = none := by
  have h0' : List.filter (fun n => !decide (n = "__MACOSX")) (entryNames tree) = [] := by
    simpa using h0
  refine ⟨?_, ?_, ?_⟩ <;>
    simp [prepare, hz, prepareZip, unzipSource, hsrc, unzip, hu, removeZipMainFolder,
      h0', cleanTempFiles, hti, tmpCleanupCall, fsEmpty, emptyTmpDir, rmTmpDir]

/-- Claim C10, witness: a concrete archive whose only top-level entry is
`__MACOSX`. -/
theorem c10_empty_top_level_throws_witness :
    jsOptTrue zipState.isZip = true
    ∧ (prepare zipState
        { baseOracle with unzipResult := Except.ok [Entry.dirE "__MACOSX" []] }
        initFs).1 = Except.error JsErr.typeErr := by
  refine ⟨rfl, ?_⟩
  exact (c10_empty_top_level_throws zipState
    { baseOracle with unzipResult := Except.ok [Entry.dirE "__MACOSX" []] }
    initFs [Entry.dirE "__MACOSX" []] [0x50, 0x4b] rfl rfl rfl rfl rfl).1

/-! ## Claim C9 -/

/-- Claim C9: calling `resolve` before `prepare` has set a working directory
throws `prepare() function not called` (after running the temp cleanup,
which on the pre-prepare state has nothing to remove and leaves the disk
untouched), and calling `parse` with no supplied `mainFile` before an entry
file was pinned throws `resolve() function not called` after deleting the
session's temp directory. -/
theorem c9_usage_errors_clean :
    (∀ (s : AmfState) (o : Oracle) (fs : Fs),
        s.tmpIsFile = false → s.workingDir = none → s.tmpObj = none →
        (resolveOp s o fs none).1 = Except.error (JsErr.err "prepare() function not called")
        ∧ (resolveOp s o fs none).2.1.tmpObj = none
        ∧ (resolveOp s o fs none).2.2 = fs)
    ∧ (∀ (s : AmfState) (o : Oracle) (fs : Fs),
        s.workingDir.isSome = true → s.mainFile = none →
        s.tmpObj = some TmpKind.tmpDir → s.tmpIsFile = false →
        (parseOp s o fs none).1 = Except.error (JsErr.err "resolve() function not called")
        ∧ (parseOp s o fs none).2.1.tmpObj = none
        ∧ (parseOp s o fs none).2.2.tmpDirTree = none) := by
  constructor
  · intro s o fs hti hwd hobj
    refine ⟨?_, ?_, ?_⟩ <;>
      simp [resolveOp, hti, hwd, cleanTempFiles, hobj]
  · intro s o fs hwd hmf hobj hti
    rcases hw : s.workingDir with _ | wd
    · rw [hw] at hwd
      simp at hwd
    · refine ⟨?_, ?_, ?_⟩ <;>
        · simp [parseOp, hw, hmf, jsStrOptTruthy, cleanTempFiles, hobj, hti,
            tmpCleanupCall, fsEmpty, emptyTmpDir, rmTmpDir]
          all_goals cases hd : fs.tmpDirTree <;> simp [hd]

/-- Claim C9, witness: a fresh service for the first usage error and a
prepared-but-unresolved zip session for the second. -/
theorem c9_usage_errors_clean_witness :
    (resolveOp initState baseOracle initFs none).1
        = Except.error (JsErr.err "prepare() function not called")
    ∧ (parseOp ambiguousState baseOracle ambiguousFs none).1
        = Except.error (JsErr.err "resolve() function not called")
    ∧ (parseOp ambiguousState baseOracle ambiguousFs none).2.2.tmpDirTree = none :=
  ⟨(c9_usage_errors_clean.1 initState baseOracle initFs rfl rfl rfl).1,
   (c9_usage_errors_clean.2 ambiguousState baseOracle ambiguousFs rfl rfl rfl rfl).1,
   (c9_usage_errors_clean.2 ambiguousState baseOracle ambiguousFs rfl rfl rfl rfl).2.2⟩

/-! ## Claim C6 -/

/-- Claim C6: `cleanup()` is idempotent.  Running `cleanup` a second time
immediately after a completed `cleanup` returns exactly the state and disk
the first call produced: no error is possible (the operation is total), no
second deletion happens (the disk, including its deletion counter, is
unchanged), and the session state is unchanged. -/
theorem c6_cleanup_idempotent (s : AmfState) (fs : Fs) :
    cleanupOp (cleanupOp s fs).1 (cleanupOp s fs).2 = cleanupOp s fs := by
  unfold cleanupOp cancelOp cleanTempFiles killParser cancelParseProcTimeout cancelMonitorParser
  rcases hm : s.monitor with _ | t <;>
  rcases hp : s.procRef with _ | i <;>
  rcases ho : s.tmpObj with _ | k <;>
  cases hti : s.tmpIsFile <;>
  simp [hm, hp, ho, hti]

/-! ## Claim C5 -/

/-- Claim C5: `_runParser` arms the parse timer with exactly the configured
timeout (`_setParserProcTimeout`'s default being 180000 ms); while the worker
sends only non-terminal `{validation}` messages the pending request is
unchanged and nothing settles, and when the armed timer fires the call
rejects with `API parsing timeout` and the worker serving the request is no
longer alive (its reference is also dropped). -/
theorem c5_timeout_rejects_and_kills (s0 : AmfState) (time : Nat) (evs : List SupEvent)
    (hv : ∀ e ∈ evs, ∃ v, e = SupEvent.message (WorkerMsg.validation v)) :
    (runParserStart s0 time).parseTimeout = some time
    ∧ defaultParseTimeoutMs = 180000
    ∧ supRun (runParserStart s0 time) evs = (runParserStart s0 time, [])
    ∧ (supStep (supRun (runParserStart s0 time) evs).1 SupEvent.parseTimerFires).2
        = [Outcome.rejected "API parsing timeout"]
    ∧ (supStep (supRun (runParserStart s0 time) evs).1 SupEvent.parseTimerFires).1.procRef
        = none
    ∧ (∀ i, (runParserStart s0 time).procRef = some i →
        procAliveAt (supStep (supRun (runParserStart s0 time) evs).1
          SupEvent.parseTimerFires).1 i = false) := by
  have hrun : supRun (runParserStart s0 time) evs = (runParserStart s0 time, []) :=
    supRun_validation_only _ evs hv
  refine ⟨rfl, rfl, hrun, ?_, ?_, ?_⟩
  · rw [hrun]
    simp [supStep, runParserStart, killParser, cancelParseProcTimeout, cancelMonitorParser]
  · rw [hrun]
    simp [supStep, runParserStart, killParser, cancelParseProcTimeout, cancelMonitorParser]
  · intro i hi
    rw [hrun]
    exact supStep_fire_kill (runParserStart s0 time) i time rfl hi

/-- Claim C5, witness: a fresh request with the default 180000 ms timeout
and one informational `{validation}` message before the timer fires. -/
theorem c5_timeout_rejects_and_kills_witness :
    (∀ e ∈ ([SupEvent.message (WorkerMsg.validation "w")] : List SupEvent),
        ∃ v, e = SupEvent.message (WorkerMsg.validation v))
    ∧ (supStep (supRun (runParserStart initState 180000)
          [SupEvent.message (WorkerMsg.validation "w")]).1 SupEvent.parseTimerFires).2
        = [Outcome.rejected "API parsing timeout"] :=
  ⟨by simp,
   (c5_timeout_rejects_and_kills initState 180000
      [SupEvent.message (WorkerMsg.validation "w")] (by simp)).2.2.2.1⟩

/-! ## Claim C3 -/

/-- Claim C3, counterexample: on the concrete state right after a request
starts, the worker (index 0) is alive; after the worker's successful `{api}`
reply the handler has killed it — the worker is no longer alive, the
reference is dropped, and no armed 60000 ms idle timer remains (the timer
the handler started was cancelled at once by the kill).  The claim that the
supervisor keeps the worker alive with a 60000 ms idle timer is false. -/
theorem c3_counterexample :
    procAliveAt c3Start 0 = true
    ∧ (supStep c3Start (SupEvent.message (WorkerMsg.apiMsg "model"))).1.procRef = none
    ∧ procAliveAt (supStep c3Start (SupEvent.message (WorkerMsg.apiMsg "model"))).1 0 = false
    ∧ monitorArmed (supStep c3Start (SupEvent.message (WorkerMsg.apiMsg "model"))).1 = false :=
  ⟨rfl, rfl, rfl, rfl⟩

/-- Claim C3 as amended: after every successful `{api}` reply the handler
starts the 60000 ms idle timer but immediately calls `_killParser`, which
cancels that timer and kills the worker — the worker never survives a
successful parse and the next `_createParserProcess` forks a fresh one.
The keep-alive behaviour exists only on the worker `error`-event path:
there the worker stays alive with the 60000 ms idle timer armed, and a
later call reuses it while it is still connected. -/
theorem c3_success_kills_worker (s : AmfState) (i : Nat) (v emsg : String)
    (hl : s.msgListeners = true) (hr : s.procRef = some i) :
    ((supStep s (SupEvent.message (WorkerMsg.apiMsg v))).2 = [Outcome.resolved v]
     ∧ (supStep s (SupEvent.message (WorkerMsg.apiMsg v))).1.procRef = none
     ∧ procAliveAt (supStep s (SupEvent.message (WorkerMsg.apiMsg v))).1 i = false
     ∧ (supStep s (SupEvent.message (WorkerMsg.apiMsg v))).1.monitor
         = some { duration := 60000, armed := false }
     ∧ (createParserProcess (supStep s (SupEvent.message (WorkerMsg.apiMsg v))).1).1.procs.length
         = (supStep s (SupEvent.message (WorkerMsg.apiMsg v))).1.procs.length + 1)
    ∧ ((supStep s (SupEvent.procError emsg)).2 = [Outcome.rejected emsg]
     ∧ (supStep s (SupEvent.procError emsg)).1.procRef = some i
     ∧ (supStep s (SupEvent.procError emsg)).1.procs = s.procs
     ∧ (supStep s (SupEvent.procError emsg)).1.monitor
         = some { duration := 60000, armed := true }
     ∧ ((s.procs.getD i { alive := false, connected := false }).connected = true →
         (createParserProcess (supStep s (SupEvent.procError emsg)).1).2 = i
         ∧ (createParserProcess (supStep s (SupEvent.procError emsg)).1).1.procs = s.procs)) := by
  constructor
  · refine ⟨?_, ?_, ?_, ?_, ?_⟩ <;>
      simp [supStep, hl, killParser, cancelParseProcTimeout, cancelMonitorParser,
        monitorParserProc, hr, createParserProcess, forkParser, procAliveAt,
        List.getD, alive_getD_setProcDead]
  · refine ⟨?_, ?_, ?_, ?_, ?_⟩
    · simp [supStep, hl]
    · simp [supStep, hl, cancelParseProcTimeout, monitorParserProc, hr]
    · simp [supStep, hl, cancelParseProcTimeout, monitorParserProc]
    · simp [supStep, hl, cancelParseProcTimeout, monitorParserProc]
    · intro hconn
      have hconn' : ((s.procs[i]?).getD { alive := false, connected := false }).connected
          = true := by
        simpa [List.getD] using hconn
      constructor <;>
        simp [supStep, hl, cancelParseProcTimeout, monitorParserProc,
          createParserProcess, hr, hconn']

/-- Claim C3 (amended), witness: the concrete post-request state, worker
index 0. -/
theorem c3_success_kills_worker_witness :
    c3Start.msgListeners = true
    ∧ (supStep c3Start (SupEvent.procError "boom")).1.monitor
        = some { duration := 60000, armed := true } :=
  ⟨rfl, (c3_success_kills_worker c3Start 0 "m" "boom" rfl rfl).2.2.2.2.1⟩

/-! ## Claim C4 -/

/-- Claim C4, counterexample: an archive wrapping two files in a single root
folder.  After `prepare` the working directory's top level is
`root, a.raml, b.raml` — the two files were promoted, but the wrapping root
folder was not removed (`fs.copy` merges upward and deletes nothing), so the
top level is not exactly the N wrapped files. -/
theorem c4_counterexample :
    (prepare zipState wrapOracle initFs).1 = Except.ok ()
    ∧ entryNames ((prepare zipState wrapOracle initFs).2.2.tmpDirTree.getD [])
        = ["root", "a.raml", "b.raml"]
    ∧ entryNames ((prepare zipState wrapOracle initFs).2.2.tmpDirTree.getD [])
        ≠ ["a.raml", "b.raml"] :=
  ⟨rfl, rfl, by decide⟩

/-- Claim C4 as amended: for every archive whose top level (ignoring
`__MACOSX`) is exactly one directory wrapping children whose names differ
from the wrapper's, `prepare` succeeds and the working directory's top level
afterwards contains all N wrapped files — but also still the wrapping root
directory itself, which the copy-merge does not remove. -/
theorem c4_root_contents_promoted_wrapper_kept (s : AmfState) (o : Oracle) (fs : Fs)
    (bs : List Nat) (es cs : List Entry) (r : String)
    (hz : jsOptTrue s.isZip = true) (hsrc : s.source = some (Source.buffer bs))
    (hu : o.unzipResult = Except.ok es)
    (h1 : (entryNames es).filter (fun n => n ≠ "__MACOSX") = [r])
    (h2 : findEntry es r = some (Entry.dirE r cs))
    (h3 : ∀ c ∈ cs, entryName c ≠ r) :
    (prepare s o fs).1 = Except.ok ()
    ∧ (prepare s o fs).2.2.tmpDirTree = some (mergeEntries es cs)
    ∧ (∀ c ∈ cs, entryName c ∈ entryNames (mergeEntries es cs))
    ∧ Entry.dirE r cs ∈ mergeEntries es cs := by
  have h1' : List.filter (fun n => !decide (n = "__MACOSX")) (entryNames es) = [r] := by
    simpa using h1
  refine ⟨?_, ?_, ?_, ?_⟩
  · simp [prepare, hz, prepareZip, unzipSource, hsrc, unzip, hu, removeZipMainFolder,
      h1', h2]
  · simp [prepare, hz, prepareZip, unzipSource, hsrc, unzip, hu, removeZipMainFolder,
      h1', h2]
  · exact fun c hc => (entryNames_mergeEntries cs es).2 c hc
  · refine mem_mergeEntries_of_no_clash cs es _ (List.mem_of_find?_eq_some h2) ?_
    intro c hc
    simpa [entryName] using h3 c hc

/-- Claim C4 (amended), witness: the concrete wrapped archive. -/
theorem c4_root_contents_promoted_wrapper_kept_witness :
    findEntry wrapTree "root"
      = some (Entry.dirE "root" [Entry.fileE "a.raml", Entry.fileE "b.raml"])
    ∧ Entry.dirE "root" [Entry.fileE "a.raml", Entry.fileE "b.raml"]
        ∈ mergeEntries wrapTree [Entry.fileE "a.raml", Entry.fileE "b.raml"] :=
  ⟨rfl,
   (c4_root_contents_promoted_wrapper_kept zipState wrapOracle initFs [0x50, 0x4b]
      wrapTree [Entry.fileE "a.raml", Entry.fileE "b.raml"] "root"
      rfl rfl rfl rfl rfl (by decide)).2.2.2⟩

/-! ## Claim C1 -/

/-- Claim C1, counterexample: in a buffer session whose write to the freshly
created temp file fails, `prepare` throws (there is no handler around
`_tmpBuffer`, unlike the zip path) and the temp file is left in existence on
disk — an exit path of `prepare` that leaves the temp resource behind. -/
theorem c1_counterexample :
    (prepare bufState failWriteOracle initFs).1 = Except.error (JsErr.err "EWRITE")
    ∧ (prepare bufState failWriteOracle initFs).2.2.tmpFileExists = true
    ∧ (prepare bufState failWriteOracle initFs).2.1.tmpObj = some TmpKind.tmpFile :=
  ⟨rfl, rfl, rfl⟩

/-- Claim C1 as amended: in every consistent session state, the temp
resource created by `prepare` is deleted by whichever of `parse` (on every
outcome), `cancel` or `cleanup` runs, and the error exits of a zip `prepare`
and of `resolve` clean up before propagating; deletion happens exactly once
(a repeated `cancel` changes nothing on disk).  The single exception is the
buffer `prepare` whose temp-file write fails: it throws with the temp file
still in existence. -/
theorem c1_temp_resource_lifecycle :
    (∀ (s : AmfState) (fs : Fs), tmpConsistent s fs →
        fsNoTemp (cancelOp s fs).2 = true ∧ (cancelOp s fs).1.tmpObj = none)
    ∧ (∀ (s : AmfState) (fs : Fs), tmpConsistent s fs →
        fsNoTemp (cleanupOp s fs).2 = true)
    ∧ (∀ (s : AmfState) (o : Oracle) (fs : Fs) (mf : Option String), tmpConsistent s fs →
        fsNoTemp (parseOp s o fs mf).2.2 = true)
    ∧ (∀ (s : AmfState) (o : Oracle) (fs : Fs), jsOptTrue s.isZip = true →
        s.tmpIsFile = false → tmpConsistent s fs →
        exceptOk (prepare s o fs).1 = true ∨ fsNoTemp (prepare s o fs).2.2 = true)
    ∧ (∀ (s : AmfState) (o : Oracle) (fs : Fs) (mf : Option String), tmpConsistent s fs →
        exceptOk (resolveOp s o fs mf).1 = true ∨ fsNoTemp (resolveOp s o fs mf).2.2 = true)
    ∧ (∀ (s : AmfState) (o : Oracle) (fs : Fs) (bs : List Nat),
        jsOptTrue s.isZip = false → s.source = some (Source.buffer bs) → o.writeOk = false →
        exceptOk (prepare s o fs).1 = false ∧ (prepare s o fs).2.2.tmpFileExists = true)
    ∧ (∀ (s : AmfState) (fs : Fs),
        (cancelOp (cancelOp s fs).1 (cancelOp s fs).2).2 = (cancelOp s fs).2) := by
  refine ⟨?_, ?_, ?_, ?_, ?_, ?_, ?_⟩
  · exact fun s fs h => cancelOp_clean s fs h
  · intro s fs h
    unfold cleanupOp
    rcases hp : s.procRef with _ | i <;>
      simp only [cancelMonitorParser, cancelParseProcTimeout, hp] <;>
      (refine (cancelOp_clean _ fs ?_).1; exact h)
  · exact fun s o fs mf h => parseOp_exit_clean s o fs mf h
  · intro s o fs hz hti h
    have hpz := prepareZip_exit_clean s o fs hti h
    simpa [prepare, hz] using hpz
  · exact fun s o fs mf h => resolveOp_exit_clean s o fs mf h
  · intro s o fs bs hz hsrc hw
    constructor <;> simp [prepare, hz, hsrc, prepareBuffer, tmpBuffer, hw, exceptOk]
  · intro s fs
    rfl

/-- Claim C1 (amended), witness: the concrete session after a buffer
`prepare`, whose `parse` deletes the temp file. -/
theorem c1_temp_resource_lifecycle_witness :
    tmpConsistent bufPrepared bufPreparedFs
    ∧ fsNoTemp (parseOp bufPrepared baseOracle bufPreparedFs none).2.2 = true := by
  have hcons : tmpConsistent bufPrepared bufPreparedFs := by
    refine ⟨?_, ?_, ?_, ?_⟩ <;> decide
  exact ⟨hcons,
    c1_temp_resource_lifecycle.2.2.1 bufPrepared baseOracle bufPreparedFs none hcons⟩

end AmfSpec
